import Mathlib

/-! Shallow embedding of the library-version compatibility resolver of
`ng-angular-setup` (`src/utils/compatibility.js` and `src/utils/npm-search.js`).

The network is made explicit: package metadata is a `Registry` parameter and
per-version peer-dependency maps a `Peers` parameter.  The npm `semver`
library (the 7.x line the package depends on) is modelled executably on the
range forms the resolver exercises: `^x.y.z`, `~x.y.z`, `>=x.y.z`, and plain
x-ranges (`*`, `M`, `M.x`, `M.m`, `M.m.p`).  As in semver 7.x,
`semver.satisfies` catches range and version parse errors internally and
returns `false` — it never throws — so the `catch` branches of the source's
compatibility checks are transcribed here but are unreachable; range syntax
outside the modelled forms (partial operator bases, comparator lists, `||`)
is treated as invalid and likewise yields `false`.  String primitives
(`split`, `includes`,
`parseInt`, `Number`) are modelled structurally over character lists so that
every definition evaluates inside the kernel.  Reason strings are reproduced
from the template literals of the source, without the quote characters some
of them put around interpolated values. -/

namespace NgSetup

/-- Character-list version of `startsWith`: does the second list start with
the first? -/
def listStartsWith : List Char → List Char → Bool
  | [], _ => true
  | _ :: _, [] => false
  | a :: as, b :: bs => a == b && listStartsWith as bs

/-- Does `pat` occur contiguously in the second list?  (JS
`String.prototype.includes` on character lists.) -/
def listContainsSub (pat : List Char) : List Char → Bool
  | [] => listStartsWith pat []
  | c :: rest2 => listStartsWith pat (c :: rest2) || listContainsSub pat rest2

/-- JS `s.includes(pat)`. -/
def strContains (s pat : String) : Bool :=
  listContainsSub pat.toList s.toList

/-- JS `s.startsWith(pat)`. -/
def strStartsWith (s pat : String) : Bool :=
  listStartsWith pat.toList s.toList

/-- Helper of `splitOnDot`: `acc` is the current chunk, reversed. -/
def splitDotAux : List Char → List Char → List String
  | [], acc => [String.mk acc.reverse]
  | c :: cs, acc =>
    if c == '.' then String.mk acc.reverse :: splitDotAux cs []
    else splitDotAux cs (c :: acc)

/-- JS `s.split('.')`; always returns a nonempty list. -/
def splitOnDot (s : String) : List String := splitDotAux s.toList []

/-- Numeric value of a list of decimal digits. -/
def digitsToNat (l : List Char) : Nat :=
  l.foldl (fun acc c => acc * 10 + (c.toNat - 48)) 0

/-- Parse a version component that is a nonempty run of decimal digits. -/
def parseNatComp (s : String) : Option Nat :=
  if !s.toList.isEmpty && s.toList.all Char.isDigit then some (digitsToNat s.toList)
  else none

/-- Parse a plain `major.minor.patch` release version.  Prerelease or
build-metadata suffixes do not parse, matching the fact that the resolver
only ever compares the plain release versions that survive its prerelease
filter. -/
def parseVer (s : String) : Option (Nat × Nat × Nat) :=
  match (splitOnDot s).map parseNatComp with
  | [some a, some b, some c] => some (a, b, c)
  | _ => none

/-- Sort key of a version string; an unparseable string is keyed lowest. -/
def verTriple (s : String) : Nat × Nat × Nat :=
  (parseVer s).getD (0, 0, 0)

/-- Lexicographic `≤` on `(major, minor, patch)`. -/
def tripleLe (a b : Nat × Nat × Nat) : Prop :=
  a.1 < b.1 ∨ (a.1 = b.1 ∧ (a.2.1 < b.2.1 ∨ (a.2.1 = b.2.1 ∧ a.2.2 ≤ b.2.2)))

instance : DecidableRel tripleLe := fun a b => by
  unfold tripleLe; infer_instance

/-- `a` precedes `b` in `semver.rcompare` descending order (ties allowed). -/
def verGeRel (a b : String) : Prop := tripleLe (verTriple b) (verTriple a)

instance : DecidableRel verGeRel := fun a b => by
  unfold verGeRel; infer_instance

instance : IsTotal String verGeRel :=
  ⟨fun a b => by unfold verGeRel tripleLe; omega⟩

instance : IsTrans String verGeRel :=
  ⟨fun a b c h1 h2 => by
    unfold verGeRel tripleLe at h1 h2 ⊢; omega⟩

/-- `.sort((a, b) => semver.rcompare(a, b))`: newest first. -/
def sortVersionsDesc (l : List String) : List String :=
  List.insertionSort verGeRel l

/-- The prerelease filter of `findCompatibleLibraryVersion` (line 282):
`!v.includes('rc') && !v.includes('beta') && !v.includes('alpha') &&
!v.includes('next')`. -/
def keepVersion (v : String) : Bool :=
  !(strContains v "rc") && !(strContains v "beta") &&
    !(strContains v "alpha") && !(strContains v "next")

/-- JS `parseInt` on a version component: the leading run of decimal digits,
`none` modelling `NaN`. -/
def jsParseInt (s : String) : Option Nat :=
  let ds := s.toList.takeWhile Char.isDigit
  if ds.isEmpty then none else some (digitsToNat ds)

/-- `version.split('.')[0]`. -/
def leadComponent (v : String) : String := (splitOnDot v).headD ""

/-- JS `===` between `parseInt` results: `NaN` is unequal to everything. -/
def jsNatEq : Option Nat → Option Nat → Bool
  | some a, some b => a == b
  | _, _ => false

/-- Text of a `parseInt` result as interpolated into a template literal. -/
def majorText : Option Nat → String
  | some n => toString n
  | none => "NaN"

/-- `Number(s)` on a dot-free component, as keyed by the major-version sort
comparator `(a, b) => Number(b) - Number(a)`.  ECMA-262 leaves the resulting
order unspecified when a comparator returns `NaN`, so non-numeric components
are keyed `0` here; on (optionally negated) digit strings the model is
exact. -/
def jsNumberKey (s : String) : Int :=
  match s.toList with
  | [] => 0
  | '-' :: rest2 =>
    if !rest2.isEmpty && rest2.all Char.isDigit then -(digitsToNat rest2 : Int) else 0
  | l => if l.all Char.isDigit then (digitsToNat l : Int) else 0

/-- `a` precedes `b` under the major-version sort comparator. -/
def majRel (a b : String) : Prop := jsNumberKey b ≤ jsNumberKey a

instance : DecidableRel majRel := fun a b => by
  unfold majRel; infer_instance

instance : IsTotal String majRel :=
  ⟨fun a b => Int.le_total (jsNumberKey b) (jsNumberKey a)⟩

instance : IsTrans String majRel :=
  ⟨fun _ _ _ h1 h2 => le_trans h2 h1⟩

/-- Helper of `dedupFirst`: drop elements already in `seen`. -/
def dedupFirstAux (seen : List String) : List String → List String
  | [] => []
  | x :: xs =>
    if seen.contains x then dedupFirstAux seen xs
    else x :: dedupFirstAux (x :: seen) xs

/-- JS `Array.from(new Set(xs))`: deduplication keeping the first occurrence
of each element, in insertion order. -/
def dedupFirst (l : List String) : List String := dedupFirstAux [] l

/-- `getMajorVersions` from `src/utils/npm-search.js` (lines 177-186): collect
`version.split('.')[0]` into a `Set`, then sort by `Number(b) - Number(a)`. -/
def getMajorVersions (versions : List String) : List String :=
  List.insertionSort majRel (dedupFirst (versions.map leadComponent))

/-- Boolean form of `tripleLe`. -/
def tripleLeb (a b : Nat × Nat × Nat) : Bool := decide (tripleLe a b)

/-- `semver` caret-range satisfaction: `v` in `[b, next-breaking b)`. -/
def caretSat (v b : Nat × Nat × Nat) : Bool :=
  tripleLeb b v &&
    (if 0 < b.1 then v.1 == b.1
     else if 0 < b.2.1 then v.1 == 0 && v.2.1 == b.2.1
     else decide (v = b))

/-- `semver` tilde-range satisfaction: same major and minor, `v ≥ b`. -/
def tildeSat (v b : Nat × Nat × Nat) : Bool :=
  tripleLeb b v && v.1 == b.1 && v.2.1 == b.2.1

/-- Is a range component the `x`, `X` or `*` wildcard? -/
def compIsWild (s : String) : Bool := s == "x" || s == "X" || s == "*"

/-- Satisfaction test of a plain x-range (no leading operator): `""` and `*`
match everything, `M` and `M.x` pin the major, `M.m` and `M.m.x` pin major
and minor, `M.m.p` is exact; anything else is an invalid range (`none`). -/
def xRangeSat (s : String) : Option ((Nat × Nat × Nat) → Bool) :=
  match splitOnDot s with
  | [a] =>
    if compIsWild a || a == "" then some (fun _ => true)
    else (parseNatComp a).map (fun ma => fun v => v.1 == ma)
  | [a, b] =>
    (parseNatComp a).bind (fun ma =>
      if compIsWild b then some (fun v => v.1 == ma)
      else (parseNatComp b).map (fun mb => fun v => v.1 == ma && v.2.1 == mb))
  | [a, b, c] =>
    (parseNatComp a).bind (fun ma =>
      if compIsWild b then some (fun v => v.1 == ma)
      else (parseNatComp b).bind (fun mb =>
        if compIsWild c then some (fun v => v.1 == ma && v.2.1 == mb)
        else (parseNatComp c).map (fun mc => fun v => decide (v = (ma, mb, mc)))))
  | _ => none

/-- Parse a range into its satisfaction test; `none` is an invalid range.
Operator bases must be full `x.y.z` versions; richer syntax is outside the
model and counted invalid. -/
def rangeSat (range : String) : Option ((Nat × Nat × Nat) → Bool) :=
  match range.toList with
  | '^' :: rest2 => (parseVer (String.mk rest2)).map (fun b => fun v => caretSat v b)
  | '~' :: rest2 => (parseVer (String.mk rest2)).map (fun b => fun v => tildeSat v b)
  | '>' :: '=' :: rest2 => (parseVer (String.mk rest2)).map (fun b => fun v => tripleLeb b v)
  | _ => xRangeSat range

/-- Executable model of `semver.satisfies(version, range)` as implemented in
semver 7.x: `new Range(range)` and the version parse are wrapped in `try` /
`catch` inside the library, which returns `false` on any parse error — the
function never throws.  The `Option Bool` codomain is the embedding's
thrown-exception channel, kept so the source's own `try`/`catch` transcribes
directly; by construction the result is always `some`. -/
def semverSatisfies (version range : String) : Option Bool :=
  some (match parseVer version, rangeSat range with
        | some v, some t => t v
        | _, _ => false)

/-- Package metadata as the resolver consumes it: the keys of the `versions`
object in enumeration order, and the `latest` dist-tag if present. -/
structure PackageData where
  versions : List String
  latest : Option String
deriving Repr, DecidableEq

/-- The registry: metadata per package name, `none` for a failed fetch. -/
abbrev Registry := String → Option PackageData

/-- Per-version peer dependencies: `peers pkg v` is the `peerDependencies`
object of version `v` of `pkg`, empty on any fetch failure (mirroring
`getPackagePeerDependencies`). -/
abbrev Peers := String → String → List (String × String)

/-- JS object property lookup on a peer-dependency map. -/
def lookupDep (m : List (String × String)) (k : String) : Option String :=
  (m.find? (fun e => e.1 == k)).map (fun e => e.2)

/-- JS truthiness of a looked-up property: absent and `""` are falsy. -/
def truthyStr : Option String → Bool
  | none => false
  | some s => s != ""

/-- JS `a || b` on looked-up properties. -/
def jsOrStr (a b : Option String) : Option String :=
  if truthyStr a then a else b

/-- Result record of `isVersionCompatibleWithAngular` and
`checkLibraryCompatibility`; `peerDependency := none` models an absent key. -/
structure CompatCheck where
  compatible : Bool
  peerDependency : Option String
  reason : String
deriving Repr, DecidableEq

/-- The `try`/`catch` body of `isVersionCompatibleWithAngular`
(lines 244-267), reached once a truthy Angular peer dependency is present:
`semver.satisfies` decides.  The `none` arm transcribes the `catch` block
(substring patterns `^M.`, `~M.`, `>=M.`, `M.` for the target major `M`,
lines 254-267); since `semver.satisfies` never throws, that arm is dead in
the model exactly as the `catch` block is dead in the program. -/
def angularDepCompat (angularDep angularVersion : String) : CompatCheck :=
  match semverSatisfies angularVersion angularDep with
  | some ok =>
    { compatible := ok, peerDependency := some angularDep,
      reason := if ok then "Angular " ++ angularVersion ++ " satisfies " ++ angularDep
                else "Angular " ++ angularVersion ++ " does not satisfy " ++ angularDep }
  | none =>
    let angularMajor := leadComponent angularVersion
    let patterns := ["^" ++ angularMajor ++ ".", "~" ++ angularMajor ++ ".",
                     ">=" ++ angularMajor ++ ".", angularMajor ++ "."]
    let ok := patterns.any (fun p => strContains angularDep p)
    { compatible := ok, peerDependency := some angularDep,
      reason := if ok then "Peer dependency appears compatible with Angular " ++ angularMajor
                else "Peer dependency " ++ angularDep ++ " may not support Angular " ++ angularMajor }

/-- `isVersionCompatibleWithAngular` (lines 233-268): look up
`peerDeps['@angular/core'] || peerDeps['@angular/common']`; a falsy result is
immediately compatible ("No Angular peer dependency"). -/
def isVersionCompatibleWithAngular (peers : Peers)
    (packageName version angularVersion : String) : CompatCheck :=
  let peerDeps := peers packageName version
  let angularDep := jsOrStr (lookupDep peerDeps "@angular/core")
    (lookupDep peerDeps "@angular/common")
  if truthyStr angularDep then
    angularDepCompat (angularDep.getD "") angularVersion
  else
    { compatible := true, peerDependency := none,
      reason := "No Angular peer dependency" }

/-- Result record of `findCompatibleLibraryVersion`.  `source` is the literal
`"dynamic"` or `"fallback"` string of the code; `peerDependency := none` and
`warning := false` model absent keys. -/
structure CompatResult where
  version : String
  source : String
  reason : String
  peerDependency : Option String
  warning : Bool
deriving Repr, DecidableEq

/-- The `for (const version of versionsToCheck)` loop of
`findCompatibleLibraryVersion` together with its post-loop code
(lines 302-345): `acc` is the accumulated `compatibleVersions` array. -/
def scanLoop (peers : Peers) (packageName angularVersion : String)
    (preferLatest : Bool) (latestTag : Option String) :
    List String → List (String × Option String) → CompatResult
  | [], acc =>
    match acc with
    | [] =>
      { version := match latestTag with | some l => "^" ++ l | none => "latest",
        source := "fallback",
        reason := "No version with compatible Angular peer dependency found",
        peerDependency := none, warning := true }
    | (v, pd) :: _ =>
      { version := "^" ++ v, source := "dynamic",
        reason := "Found " ++ toString acc.length ++ " compatible version(s)",
        peerDependency := pd, warning := false }
  | v :: rest, acc =>
    let c := isVersionCompatibleWithAngular peers packageName v angularVersion
    if c.compatible then
      if preferLatest then
        { version := "^" ++ v, source := "dynamic", reason := c.reason,
          peerDependency := c.peerDependency, warning := false }
      else
        scanLoop peers packageName angularVersion preferLatest latestTag rest
          (acc ++ [(v, c.peerDependency)])
    else
      scanLoop peers packageName angularVersion preferLatest latestTag rest acc

/-- The filtered, descending version list of lines 281-283. -/
def sortedFilteredVersions (pkg : PackageData) : List String :=
  sortVersionsDesc (pkg.versions.filter keepVersion)

/-- `versionsToCheck = versions.slice(0, 20)` (line 305). -/
def scannedVersions (pkg : PackageData) : List String :=
  (sortedFilteredVersions pkg).take 20

/-- The `@angular/`-scoped fast path (lines 286-299): among the filtered,
descending versions, take the newest whose `parseInt`-major equals the
target's; `none` when no major matches and the code falls through to the
peer-dependency scan. -/
def angularFastPath (versions : List String) (angularMajor : Option Nat) :
    Option CompatResult :=
  match versions.filter (fun v => jsNatEq (jsParseInt (leadComponent v)) angularMajor) with
  | [] => none
  | m :: _ =>
    some { version := "^" ++ m, source := "dynamic",
           reason := "Matched Angular major version " ++ majorText angularMajor,
           peerDependency := none, warning := false }

/-- The fast-path guard of line 286: only `@angular/`-scoped names enter
`angularFastPath`. -/
def fastPath (packageName : String) (pkg : PackageData) (angularVersion : String) :
    Option CompatResult :=
  if strStartsWith packageName "@angular/" then
    angularFastPath (sortedFilteredVersions pkg) (jsParseInt (leadComponent angularVersion))
  else none

/-- `findCompatibleLibraryVersion` (lines 273-346) over an explicit registry
and peer-dependency source. -/
def findCompatibleLibraryVersion (reg : Registry) (peers : Peers)
    (packageName angularVersion : String) (preferLatest : Bool) : CompatResult :=
  match reg packageName with
  | none =>
    { version := "latest", source := "fallback",
      reason := "Could not fetch package data", peerDependency := none,
      warning := false }
  | some pkg =>
    match fastPath packageName pkg angularVersion with
    | some r => r
    | none =>
      scanLoop peers packageName angularVersion preferLatest pkg.latest
        (scannedVersions pkg) []

/-- `checkLibraryCompatibility` (lines 442-488): `semver.satisfies` decides.
The `none` arm transcribes the `catch` block (substring patterns `^M.`,
`~M.`, `>=M.`, `M.x`, `M.0.0`, and `" M."` for the target major `M`, lines
462-487); since `semver.satisfies` never throws, that arm is dead in the
model exactly as the `catch` block is dead in the program. -/
def checkLibraryCompatibility (peerDependency angularVersion : String) : CompatCheck :=
  if peerDependency == "" || peerDependency == "No Angular peer dependency" then
    { compatible := true, peerDependency := none,
      reason := "No Angular peer dependency specified" }
  else
    match semverSatisfies angularVersion peerDependency with
    | some ok =>
      { compatible := ok, peerDependency := none,
        reason := if ok then
            "Angular " ++ angularVersion ++ " satisfies peer dependency " ++ peerDependency
          else
            "Angular " ++ angularVersion ++ " does not satisfy peer dependency " ++ peerDependency }
    | none =>
      let angularMajor := leadComponent angularVersion
      let patterns := ["^" ++ angularMajor ++ ".", "~" ++ angularMajor ++ ".",
                       ">=" ++ angularMajor ++ ".", angularMajor ++ ".x",
                       angularMajor ++ ".0.0", " " ++ angularMajor ++ "."]
      let ok := patterns.any (fun p => strContains peerDependency p)
      { compatible := ok, peerDependency := none,
        reason := if ok then
            "Peer dependency " ++ peerDependency ++ " appears compatible with Angular " ++ angularMajor
          else
            "Peer dependency " ++ peerDependency ++ " may not support Angular " ++ angularMajor }

/-- A caller-supplied library request; `version := none` models an absent
`version` key. -/
structure Library where
  name : String
  version : Option String
  isDevDependency : Bool
deriving Repr, DecidableEq

/-- One element of `resolveLibraryVersionsAsync`'s output: the spread of the
input record plus the annotation fields; `Option` fields model keys absent in
one of the two branches. -/
structure ResolvedLibrary where
  name : String
  version : Option String
  isDevDependency : Bool
  originalVersion : Option String
  adjusted : Bool
  compatible : Option Bool
  source : Option String
  reason : String
  warning : Bool
deriving Repr, DecidableEq

/-- `requestedVersion.replace(/[\x5e~]/, '')`: drop the first caret or tilde
character, wherever it occurs. -/
def dropFirstRangeChar : List Char → List Char
  | [] => []
  | c :: cs => if c == '^' || c == '~' then cs else c :: dropFirstRangeChar cs

/-- String form of `dropFirstRangeChar`. -/
def stripRangeChar (s : String) : String := String.mk (dropFirstRangeChar s.toList)

/-- The loop body of `resolveLibraryVersionsAsync` (lines 383-410) for one
library request. -/
def resolveOne (reg : Registry) (peers : Peers) (angularVersion : String)
    (lib : Library) : ResolvedLibrary :=
  let requestedVersion := match lib.version with
    | some v => if v != "" then v else "latest"
    | none => "latest"
  if requestedVersion == "latest" then
    let result := findCompatibleLibraryVersion reg peers lib.name angularVersion true
    { name := lib.name, version := some result.version,
      isDevDependency := lib.isDevDependency,
      originalVersion := some requestedVersion,
      adjusted := result.source == "dynamic",
      compatible := none, source := some result.source,
      reason := result.reason, warning := result.warning }
  else
    let c := isVersionCompatibleWithAngular peers lib.name
      (stripRangeChar requestedVersion) angularVersion
    { name := lib.name, version := lib.version,
      isDevDependency := lib.isDevDependency,
      originalVersion := none, adjusted := false,
      compatible := some c.compatible, source := none,
      reason := c.reason, warning := !c.compatible }

/-- `resolveLibraryVersionsAsync` (lines 380-413). -/
def resolveLibraryVersionsAsync (reg : Registry) (peers : Peers)
    (libraries : List Library) (angularVersion : String) : List ResolvedLibrary :=
  libraries.map (resolveOne reg peers angularVersion)

/-- One `packageCache` entry: fetched data plus `Date.now()` at fetch time. -/
structure CacheEntry where
  data : PackageData
  timestamp : Nat
deriving Repr, DecidableEq

/-- `CACHE_TTL = 5 * 60 * 1000` milliseconds. -/
def CACHE_TTL : Nat := 5 * 60 * 1000

/-- The metadata cache, keyed by package name. -/
abbrev Cache := String → Option CacheEntry

/-- Outcome of one `fetchPackageData` call: returned data, the cache after
the call, and whether an HTTP request was issued. -/
structure FetchOutcome where
  data : Option PackageData
  cache : Cache
  requestMade : Bool

/-- `packageCache.set`. -/
def cacheInsert (c : Cache) (k : String) (e : CacheEntry) : Cache :=
  fun k2 => if k2 == k then some e else c k2

/-- `fetchPackageData` (lines 186-206) with the network and clock explicit: a
cache entry younger than the TTL short-circuits with no request; otherwise
one request is issued, and only a successful response is (re)cached. -/
def fetchPackageData (net : Registry) (now : Nat) (cache : Cache)
    (packageName : String) : FetchOutcome :=
  match cache packageName with
  | some e =>
    if now - e.timestamp < CACHE_TTL then
      { data := some e.data, cache := cache, requestMade := false }
    else
      match net packageName with
      | some d =>
        { data := some d,
          cache := cacheInsert cache packageName { data := d, timestamp := now },
          requestMade := true }
      | none => { data := none, cache := cache, requestMade := true }
  | none =>
    match net packageName with
    | some d =>
      { data := some d,
        cache := cacheInsert cache packageName { data := d, timestamp := now },
        requestMade := true }
    | none => { data := none, cache := cache, requestMade := true }

/-- A dot-free version component is numeric when it is a nonempty string of
decimal digits. -/
def isNumericStr (s : String) : Bool :=
  !s.toList.isEmpty && s.toList.all Char.isDigit

/-- Modelled from the spec: the compatibility verdict of the exact
malformed-range fallback pattern list of §4.3 step 3 — a substring match
against the five patterns `^M.`, `~M.`, `>=M.`, `M.x`, `M.0.0` only. -/
def specPatternCompatible (peerDependency angularVersion : String) : Bool :=
  let m := leadComponent angularVersion
  (["^" ++ m ++ ".", "~" ++ m ++ ".", ">=" ++ m ++ ".", m ++ ".x",
    m ++ ".0.0"]).any (fun p => strContains peerDependency p)

/-- The demo registry of the specification's scenario: `demo-lib` with
non-prerelease versions `2.0.0`, `1.5.0`, `1.0.0` and latest tag `2.0.0`. -/
def demoReg : Registry := fun n =>
  if n == "demo-lib" then
    some { versions := ["2.0.0", "1.5.0", "1.0.0"], latest := some "2.0.0" }
  else none

/-- The demo peer-dependency source: only `1.5.0` declares
`"@angular/core": "^17.0.0"`. -/
def demoPeers : Peers := fun _ v =>
  if v == "1.5.0" then [("@angular/core", "^17.0.0")] else []

/-- A peer-dependency source on which no version is Angular-compatible with
target `17.x`: every version pins `"@angular/core": "^16.0.0"`. -/
def demoPeersIncompatible : Peers := fun _ _ => [("@angular/core", "^16.0.0")]

/-- A registry with one `@angular/`-scoped package. -/
def demoScopedReg : Registry := fun n =>
  if n == "@angular/material" then
    some { versions := ["17.3.0", "18.0.0", "17.1.0"], latest := some "18.0.0" }
  else none

/-- An always-empty registry (every metadata fetch fails). -/
def emptyReg : Registry := fun _ => none

/-- An empty peer-dependency source. -/
def emptyPeers : Peers := fun _ _ => []

/-- An empty metadata cache. -/
def emptyCache : Cache := fun _ => none

/-- Demo library requests: one `latest` request and one pinned request. -/
def demoLibs : List Library :=
  [{ name := "demo-lib", version := none, isDevDependency := false },
   { name := "pinned-lib", version := some "^1.2.3", isDevDependency := true }]

/-- Demo input of the major-version utility, all leading components
numeric. -/
def demoMajorInput : List String := ["17.1.0", "16.2.0", "17.3.0", "9.0.1"]

end NgSetup

namespace NgSetup

theorem verGeRel_refl (a : String) : verGeRel a a := by
  unfold verGeRel tripleLe; omega

theorem isVersionCompat_congr (peers peers2 : Peers) (n v av : String)
    (h : peers2 n v = peers n v) :
    isVersionCompatibleWithAngular peers2 n v av =
      isVersionCompatibleWithAngular peers n v av := by
  unfold isVersionCompatibleWithAngular; rw [h]

theorem scanLoop_first_compat (peers : Peers) (n av : String) (tag : Option String)
    (v : String) :
    ∀ (pre post : List String) (acc : List (String × Option String)),
      (∀ w ∈ pre, (isVersionCompatibleWithAngular peers n w av).compatible = false) →
      (isVersionCompatibleWithAngular peers n v av).compatible = true →
      scanLoop peers n av true tag (pre ++ v :: post) acc =
        { version := "^" ++ v, source := "dynamic",
          reason := (isVersionCompatibleWithAngular peers n v av).reason,
          peerDependency := (isVersionCompatibleWithAngular peers n v av).peerDependency,
          warning := false } := by
  intro pre
  induction pre with
  | nil =>
    intro post acc _ hv
    simp [scanLoop, hv]
  | cons w pre2 ih =>
    intro post acc hpre hv
    have hw : (isVersionCompatibleWithAngular peers n w av).compatible = false :=
      hpre w (by simp)
    simp only [List.cons_append, scanLoop, hw]
    simp only [Bool.false_eq_true, if_false]
    exact ih post acc (fun x hx => hpre x (by simp [hx])) hv

theorem scanLoop_all_incompat (peers : Peers) (n av : String) (p : Bool)
    (tag : Option String) :
    ∀ (L : List String) (acc : List (String × Option String)),
      (∀ w ∈ L, (isVersionCompatibleWithAngular peers n w av).compatible = false) →
      scanLoop peers n av p tag L acc = scanLoop peers n av p tag [] acc := by
  intro L
  induction L with
  | nil => intro acc _; rfl
  | cons w rest ih =>
    intro acc hall
    have hw : (isVersionCompatibleWithAngular peers n w av).compatible = false :=
      hall w (by simp)
    simp only [scanLoop, hw, Bool.false_eq_true, if_false]
    exact ih acc (fun x hx => hall x (by simp [hx]))

theorem scanLoop_fallback_pd (peers : Peers) (n av : String) (p : Bool)
    (tag : Option String) :
    ∀ (L : List String) (acc : List (String × Option String)),
      (scanLoop peers n av p tag L acc).source = "fallback" →
      (scanLoop peers n av p tag L acc).peerDependency = none := by
  intro L
  induction L with
  | nil =>
    intro acc h
    cases acc with
    | nil => rfl
    | cons hd tl => simp [scanLoop] at h
  | cons w rest ih =>
    intro acc h
    cases hc : (isVersionCompatibleWithAngular peers n w av).compatible with
    | true =>
      cases p with
      | true => simp [scanLoop, hc] at h
      | false =>
        simp only [scanLoop, hc, if_true] at h ⊢
        exact ih _ h
    | false =>
      simp only [scanLoop, hc, Bool.false_eq_true, if_false] at h ⊢
      exact ih _ h

theorem scanLoop_version_shape (peers : Peers) (n av : String) (p : Bool)
    (tag : Option String) :
    ∀ (L : List String) (acc : List (String × Option String)),
      (∃ w, (scanLoop peers n av p tag L acc).version = "^" ++ w) ∨
        ((scanLoop peers n av p tag L acc).version = "latest" ∧ tag = none) := by
  intro L
  induction L with
  | nil =>
    intro acc
    cases acc with
    | nil =>
      cases htag : tag with
      | some l => exact Or.inl ⟨l, by simp [scanLoop, htag]⟩
      | none => exact Or.inr ⟨by simp [scanLoop, htag], rfl⟩
    | cons hd tl => exact Or.inl ⟨hd.1, by simp [scanLoop]⟩
  | cons w rest ih =>
    intro acc
    cases hc : (isVersionCompatibleWithAngular peers n w av).compatible with
    | true =>
      cases p with
      | true => exact Or.inl ⟨w, by simp [scanLoop, hc]⟩
      | false =>
        simp only [scanLoop, hc, if_true]
        exact ih _
    | false =>
      simp only [scanLoop, hc, Bool.false_eq_true, if_false]
      exact ih _

theorem scanLoop_congr_peers (peers peers2 : Peers) (n av : String) (p : Bool)
    (tag : Option String) :
    ∀ (L : List String) (acc : List (String × Option String)),
      (∀ w ∈ L, peers2 n w = peers n w) →
      scanLoop peers2 n av p tag L acc = scanLoop peers n av p tag L acc := by
  intro L
  induction L with
  | nil => intro acc _; rfl
  | cons w rest ih =>
    intro acc hagree
    have hv := isVersionCompat_congr peers peers2 n w av (hagree w (by simp))
    simp only [scanLoop, hv]
    cases hc : (isVersionCompatibleWithAngular peers n w av).compatible with
    | true =>
      cases p with
      | true => simp [hc]
      | false =>
        simp only [hc, if_true]
        exact ih _ (fun x hx => hagree x (by simp [hx]))
    | false =>
      simp only [hc, Bool.false_eq_true, if_false]
      exact ih _ (fun x hx => hagree x (by simp [hx]))

theorem find_eq_of_fastPath_none (reg : Registry) (peers : Peers) (n av : String)
    (p : Bool) (pkg : PackageData) (hreg : reg n = some pkg)
    (hf : fastPath n pkg av = none) :
    findCompatibleLibraryVersion reg peers n av p =
      scanLoop peers n av p pkg.latest (scannedVersions pkg) [] := by
  simp [findCompatibleLibraryVersion, hreg, hf]

theorem find_eq_of_fastPath_some (reg : Registry) (peers : Peers) (n av : String)
    (p : Bool) (pkg : PackageData) (r : CompatResult) (hreg : reg n = some pkg)
    (hf : fastPath n pkg av = some r) :
    findCompatibleLibraryVersion reg peers n av p = r := by
  simp [findCompatibleLibraryVersion, hreg, hf]

theorem fastPath_shape (n : String) (pkg : PackageData) (av : String)
    (r : CompatResult) (h : fastPath n pkg av = some r) :
    r.source = "dynamic" ∧ r.peerDependency = none ∧ ∃ w, r.version = "^" ++ w := by
  unfold fastPath at h
  by_cases hs : strStartsWith n "@angular/" = true
  · rw [if_pos hs] at h
    unfold angularFastPath at h
    split at h
    · cases h
    · cases h
      exact ⟨rfl, rfl, _, rfl⟩
  · rw [if_neg hs] at h
    cases h

end NgSetup

namespace NgSetup

/-- C3: whenever package metadata cannot be fetched (the registry yields
`none` for the name, covering both a 404 and a network failure, which
`fetchPackageData` maps to `null`), `findCompatibleLibraryVersion` returns
the structured result `version = "latest"`, `source = "fallback"` with the
metadata-unavailable reason, and no error is raised (the function is total
and yields this record). -/
theorem C3_metadata_unavailable_fallback (reg : Registry) (peers : Peers)
    (packageName angularVersion : String) (preferLatest : Bool)
    (hreg : reg packageName = none) :
    findCompatibleLibraryVersion reg peers packageName angularVersion preferLatest =
      { version := "latest", source := "fallback",
        reason := "Could not fetch package data", peerDependency := none,
        warning := false } := by
  simp [findCompatibleLibraryVersion, hreg]

/-- Witness for C3: on a registry where every fetch fails, resolving
`demo-lib` against `17.2.0` yields the metadata-unavailable fallback. -/
theorem C3_metadata_unavailable_fallback_witness :
    findCompatibleLibraryVersion emptyReg emptyPeers "demo-lib" "17.2.0" true =
      { version := "latest", source := "fallback",
        reason := "Could not fetch package data", peerDependency := none,
        warning := false } :=
  C3_metadata_unavailable_fallback emptyReg emptyPeers "demo-lib" "17.2.0" true rfl

/-- C7: every result of `findCompatibleLibraryVersion` whose source is
`"fallback"` carries no peer-dependency field; only `"dynamic"` results may
record one. -/
theorem C7_fallback_never_records_peer (reg : Registry) (peers : Peers)
    (packageName angularVersion : String) (preferLatest : Bool)
    (hsrc : (findCompatibleLibraryVersion reg peers packageName angularVersion
        preferLatest).source = "fallback") :
    (findCompatibleLibraryVersion reg peers packageName angularVersion
        preferLatest).peerDependency = none := by
  cases hreg : reg packageName with
  | none => simp [findCompatibleLibraryVersion, hreg]
  | some pkg =>
    cases hf : fastPath packageName pkg angularVersion with
    | some r =>
      rw [find_eq_of_fastPath_some reg peers packageName angularVersion
        preferLatest pkg r hreg hf] at hsrc
      have := (fastPath_shape packageName pkg angularVersion r hf).1
      rw [this] at hsrc
      simp at hsrc
    | none =>
      rw [find_eq_of_fastPath_none reg peers packageName angularVersion
        preferLatest pkg hreg hf] at hsrc ⊢
      exact scanLoop_fallback_pd peers packageName angularVersion preferLatest
        pkg.latest _ _ hsrc

/-- Witness for C7: the metadata-unavailable fallback for `demo-lib` indeed
records no peer dependency. -/
theorem C7_fallback_never_records_peer_witness :
    (findCompatibleLibraryVersion emptyReg emptyPeers "demo-lib" "17.2.0"
        true).peerDependency = none :=
  C7_fallback_never_records_peer emptyReg emptyPeers "demo-lib" "17.2.0" true
    (by decide)

/-- C10 (implicit): whenever the resolver settles on a concrete version — the
scoped fast path, the peer-dependency scan, or the scan-exhausted fallback
with a `latest` dist-tag — the returned specifier is the caret prepended to
that version; the bare string `"latest"` is returned only when metadata is
unavailable or the package has no `latest` dist-tag. -/
theorem C10_caret_version_specifier (reg : Registry) (peers : Peers)
    (packageName angularVersion : String) (preferLatest : Bool) :
    (∃ w, (findCompatibleLibraryVersion reg peers packageName angularVersion
        preferLatest).version = "^" ++ w) ∨
    ((findCompatibleLibraryVersion reg peers packageName angularVersion
        preferLatest).version = "latest" ∧
      (reg packageName = none ∨
        ∃ pkg, reg packageName = some pkg ∧ pkg.latest = none)) := by
  cases hreg : reg packageName with
  | none =>
    refine Or.inr ⟨?_, Or.inl rfl⟩
    simp [findCompatibleLibraryVersion, hreg]
  | some pkg =>
    cases hf : fastPath packageName pkg angularVersion with
    | some r =>
      rw [find_eq_of_fastPath_some reg peers packageName angularVersion
        preferLatest pkg r hreg hf]
      exact Or.inl (fastPath_shape packageName pkg angularVersion r hf).2.2
    | none =>
      rw [find_eq_of_fastPath_none reg peers packageName angularVersion
        preferLatest pkg hreg hf]
      cases scanLoop_version_shape peers packageName angularVersion preferLatest
          pkg.latest (scannedVersions pkg) [] with
      | inl h => exact Or.inl h
      | inr h => exact Or.inr ⟨h.1, Or.inr ⟨pkg, rfl, h.2⟩⟩

/-- C1: for a package with available metadata outside the `@angular/`
namespace, the resolver scans the filtered, descending version list and
returns the first compatible version it meets as a `"dynamic"` result with
the caret prepended; and any version declaring neither an `@angular/core`
nor an `@angular/common` peer dependency counts as compatible immediately. -/
theorem C1_first_compatible_version_wins (reg : Registry) (peers : Peers)
    (packageName angularVersion : String) (pkg : PackageData)
    (pre post : List String) (v : String)
    (hreg : reg packageName = some pkg)
    (hns : strStartsWith packageName "@angular/" = false)
    (hsplit : scannedVersions pkg = pre ++ v :: post)
    (hpre : ∀ w ∈ pre,
      (isVersionCompatibleWithAngular peers packageName w angularVersion).compatible
        = false)
    (hv : (isVersionCompatibleWithAngular peers packageName v
        angularVersion).compatible = true) :
    findCompatibleLibraryVersion reg peers packageName angularVersion true =
      { version := "^" ++ v, source := "dynamic",
        reason := (isVersionCompatibleWithAngular peers packageName v
          angularVersion).reason,
        peerDependency := (isVersionCompatibleWithAngular peers packageName v
          angularVersion).peerDependency,
        warning := false } ∧
    (∀ w : String,
      lookupDep (peers packageName w) "@angular/core" = none →
      lookupDep (peers packageName w) "@angular/common" = none →
      (isVersionCompatibleWithAngular peers packageName w
        angularVersion).compatible = true) := by
  constructor
  · have hf : fastPath packageName pkg angularVersion = none := by
      unfold fastPath
      rw [hns]
      simp
    rw [find_eq_of_fastPath_none reg peers packageName angularVersion true pkg
      hreg hf, hsplit]
    exact scanLoop_first_compat peers packageName angularVersion pkg.latest v
      pre post [] hpre hv
  · intro w h1 h2
    simp [isVersionCompatibleWithAngular, jsOrStr, truthyStr, h1, h2]

/-- Witness for C1, the specification's scenario: target `17.2.0`, versions
`2.0.0`, `1.5.0`, `1.0.0` where only `1.5.0` constrains the Angular core —
the unconstrained `2.0.0` wins, not `1.5.0`. -/
theorem C1_first_compatible_version_wins_witness :
    findCompatibleLibraryVersion demoReg demoPeers "demo-lib" "17.2.0" true =
      { version := "^2.0.0", source := "dynamic",
        reason := "No Angular peer dependency", peerDependency := none,
        warning := false } := by
  have h := C1_first_compatible_version_wins demoReg demoPeers "demo-lib"
    "17.2.0" { versions := ["2.0.0", "1.5.0", "1.0.0"], latest := some "2.0.0" }
    [] ["1.5.0", "1.0.0"] "2.0.0" (by decide) (by decide) (by decide)
    (by intro w hw; cases hw) (by decide)
  exact h.1.trans (by decide)

end NgSetup

namespace NgSetup

/-- C2: when metadata is available, the fast path does not fire, and none of
the scanned versions is compatible, the resolver returns the `latest`
dist-tag (caret-prefixed) as a `"fallback"` result with `warning = true`;
moreover only the 20 newest filtered versions are ever consulted — the
result is unchanged under any peer-dependency source that agrees on them. -/
theorem C2_scan_exhausted_latest_fallback (reg : Registry) (peers : Peers)
    (packageName angularVersion : String) (preferLatest : Bool)
    (pkg : PackageData) (l : String)
    (hreg : reg packageName = some pkg)
    (hf : fastPath packageName pkg angularVersion = none)
    (hlat : pkg.latest = some l)
    (hall : ∀ w ∈ scannedVersions pkg,
      (isVersionCompatibleWithAngular peers packageName w
        angularVersion).compatible = false) :
    findCompatibleLibraryVersion reg peers packageName angularVersion preferLatest =
      { version := "^" ++ l, source := "fallback",
        reason := "No version with compatible Angular peer dependency found",
        peerDependency := none, warning := true } ∧
    (∀ peers2 : Peers,
      (∀ w ∈ scannedVersions pkg, peers2 packageName w = peers packageName w) →
      findCompatibleLibraryVersion reg peers2 packageName angularVersion
          preferLatest =
        findCompatibleLibraryVersion reg peers packageName angularVersion
          preferLatest) := by
  constructor
  · rw [find_eq_of_fastPath_none reg peers packageName angularVersion
        preferLatest pkg hreg hf,
      scanLoop_all_incompat peers packageName angularVersion preferLatest
        pkg.latest _ [] hall]
    simp [scanLoop, hlat]
  · intro peers2 hagree
    rw [find_eq_of_fastPath_none reg peers2 packageName angularVersion
        preferLatest pkg hreg hf,
      find_eq_of_fastPath_none reg peers packageName angularVersion
        preferLatest pkg hreg hf]
    exact scanLoop_congr_peers peers peers2 packageName angularVersion
      preferLatest pkg.latest _ [] hagree

/-- Witness for C2: with every version of `demo-lib` pinning
`@angular/core: ^16.0.0` against target `17.2.0`, the resolver falls back to
the caret-prefixed `latest` dist-tag with a warning. -/
theorem C2_scan_exhausted_latest_fallback_witness :
    findCompatibleLibraryVersion demoReg demoPeersIncompatible "demo-lib"
        "17.2.0" true =
      { version := "^2.0.0", source := "fallback",
        reason := "No version with compatible Angular peer dependency found",
        peerDependency := none, warning := true } := by
  have h := C2_scan_exhausted_latest_fallback demoReg demoPeersIncompatible
    "demo-lib" "17.2.0" true
    { versions := ["2.0.0", "1.5.0", "1.0.0"], latest := some "2.0.0" }
    "2.0.0" (by decide) (by decide) (by decide) (by decide)
  exact h.1.trans (by decide)

/-- C4: for an `@angular/`-scoped package, if some non-prerelease version's
major equals the target's major then the resolver returns the newest such
version as a `"dynamic"` result — independent of every peer-dependency
source, i.e. without any per-version peer scan — and if no such version
exists, resolution continues to the peer-dependency scan loop. -/
theorem C4_scoped_fast_path (reg : Registry) (peers : Peers)
    (packageName angularVersion : String) (preferLatest : Bool)
    (pkg : PackageData)
    (hreg : reg packageName = some pkg)
    (hsc : strStartsWith packageName "@angular/" = true) :
    (∀ m rest2,
      (sortedFilteredVersions pkg).filter
          (fun v => jsNatEq (jsParseInt (leadComponent v))
            (jsParseInt (leadComponent angularVersion))) = m :: rest2 →
      findCompatibleLibraryVersion reg peers packageName angularVersion
          preferLatest =
        { version := "^" ++ m, source := "dynamic",
          reason := "Matched Angular major version " ++
            majorText (jsParseInt (leadComponent angularVersion)),
          peerDependency := none, warning := false } ∧
      (∀ w ∈ (sortedFilteredVersions pkg).filter
          (fun v => jsNatEq (jsParseInt (leadComponent v))
            (jsParseInt (leadComponent angularVersion))), verGeRel m w) ∧
      (∀ peers2 : Peers,
        findCompatibleLibraryVersion reg peers2 packageName angularVersion
            preferLatest =
          findCompatibleLibraryVersion reg peers packageName angularVersion
            preferLatest)) ∧
    ((sortedFilteredVersions pkg).filter
        (fun v => jsNatEq (jsParseInt (leadComponent v))
          (jsParseInt (leadComponent angularVersion))) = [] →
      findCompatibleLibraryVersion reg peers packageName angularVersion
          preferLatest =
        scanLoop peers packageName angularVersion preferLatest pkg.latest
          (scannedVersions pkg) []) := by
  constructor
  · intro m rest2 hm
    have hfp : fastPath packageName pkg angularVersion =
        some { version := "^" ++ m, source := "dynamic",
               reason := "Matched Angular major version " ++
                 majorText (jsParseInt (leadComponent angularVersion)),
               peerDependency := none, warning := false } := by
      simp [fastPath, angularFastPath, hsc, hm]
    refine ⟨find_eq_of_fastPath_some reg peers packageName angularVersion
      preferLatest pkg _ hreg hfp, ?_, ?_⟩
    · have hsorted : List.Sorted verGeRel (sortedFilteredVersions pkg) := by
        unfold sortedFilteredVersions sortVersionsDesc
        exact List.sorted_insertionSort verGeRel _
      have hpf := List.Pairwise.filter
        (fun v => jsNatEq (jsParseInt (leadComponent v))
          (jsParseInt (leadComponent angularVersion))) hsorted
      rw [hm] at hpf
      intro w hw
      rw [hm] at hw
      cases hw with
      | head => exact verGeRel_refl m
      | tail _ hw2 => exact (List.pairwise_cons.mp hpf).1 w hw2
    · intro peers2
      rw [find_eq_of_fastPath_some reg peers2 packageName angularVersion
          preferLatest pkg _ hreg hfp,
        find_eq_of_fastPath_some reg peers packageName angularVersion
          preferLatest pkg _ hreg hfp]
  · intro hempty
    have hfp : fastPath packageName pkg angularVersion = none := by
      simp [fastPath, angularFastPath, hsc, hempty]
    exact find_eq_of_fastPath_none reg peers packageName angularVersion
      preferLatest pkg hreg hfp

/-- Witness for C4: `@angular/material` with versions `18.0.0`, `17.3.0`,
`17.1.0` resolves for target `17.2.0` to the newest major-17 version
`17.3.0`, with no peer data consulted. -/
theorem C4_scoped_fast_path_witness :
    findCompatibleLibraryVersion demoScopedReg emptyPeers "@angular/material"
        "17.2.0" true =
      { version := "^17.3.0", source := "dynamic",
        reason := "Matched Angular major version 17",
        peerDependency := none, warning := false } := by
  have h := (C4_scoped_fast_path demoScopedReg emptyPeers "@angular/material"
    "17.2.0" true
    { versions := ["17.3.0", "18.0.0", "17.1.0"], latest := some "18.0.0" }
    (by decide) (by decide)).1 "17.3.0" ["17.1.0"] (by decide)
  exact h.1.trans (by decide)

end NgSetup

namespace NgSetup

theorem not_mem_dedupFirstAux (a : String) :
    ∀ (l seen : List String), seen.contains a = true → a ∉ dedupFirstAux seen l := by
  intro l
  induction l with
  | nil => intro seen _; simp [dedupFirstAux]
  | cons x xs ih =>
    intro seen h
    cases hx : seen.contains x with
    | true =>
      simp only [dedupFirstAux, hx, if_true]
      exact ih seen h
    | false =>
      simp only [dedupFirstAux, hx, Bool.false_eq_true, if_false]
      intro hmem
      cases List.mem_cons.mp hmem with
      | inl he =>
        subst he
        rw [h] at hx
        cases hx
      | inr hm =>
        refine ih (x :: seen) ?_ hm
        simp only [List.contains_cons]
        simp only [Bool.or_eq_true]
        exact Or.inr h

theorem dedupFirstAux_nodup :
    ∀ (l seen : List String), (dedupFirstAux seen l).Nodup := by
  intro l
  induction l with
  | nil => intro seen; simp [dedupFirstAux]
  | cons x xs ih =>
    intro seen
    cases hx : seen.contains x with
    | true =>
      simp only [dedupFirstAux, hx, if_true]
      exact ih seen
    | false =>
      simp only [dedupFirstAux, hx, Bool.false_eq_true, if_false]
      exact List.nodup_cons.mpr
        ⟨not_mem_dedupFirstAux x xs (x :: seen) (by simp [List.contains_cons]),
         ih (x :: seen)⟩

theorem dedupFirstAux_subset (a : String) :
    ∀ (l seen : List String), a ∈ dedupFirstAux seen l → a ∈ l := by
  intro l
  induction l with
  | nil => intro seen h; simp [dedupFirstAux] at h
  | cons x xs ih =>
    intro seen h
    cases hx : seen.contains x with
    | true =>
      rw [dedupFirstAux, hx, if_pos rfl] at h
      exact List.mem_cons_of_mem x (ih seen h)
    | false =>
      rw [dedupFirstAux, hx] at h
      simp only [Bool.false_eq_true, if_false] at h
      cases List.mem_cons.mp h with
      | inl he => exact he ▸ List.mem_cons_self x xs
      | inr hm => exact List.mem_cons_of_mem x (ih (x :: seen) hm)

theorem mem_dedupFirstAux_of (a : String) :
    ∀ (l seen : List String), a ∈ l → seen.contains a = false →
      a ∈ dedupFirstAux seen l := by
  intro l
  induction l with
  | nil => intro seen h _; cases h
  | cons x xs ih =>
    intro seen hmem hs
    cases hx : seen.contains x with
    | true =>
      simp only [dedupFirstAux, hx, if_true]
      cases List.mem_cons.mp hmem with
      | inl he =>
        subst he
        rw [hs] at hx
        cases hx
      | inr hm => exact ih seen hm hs
    | false =>
      simp only [dedupFirstAux, hx, Bool.false_eq_true, if_false]
      by_cases he : a = x
      · exact he ▸ List.mem_cons_self x _
      · cases List.mem_cons.mp hmem with
        | inl he2 => exact absurd he2 he
        | inr hm =>
          refine List.mem_cons_of_mem x (ih (x :: seen) hm ?_)
          simp only [List.contains_cons, Bool.or_eq_false_iff]
          exact ⟨by simp [he], hs⟩

theorem mem_getMajorVersions (m : String) (versions : List String) :
    m ∈ getMajorVersions versions ↔ m ∈ versions.map leadComponent := by
  unfold getMajorVersions dedupFirst
  rw [List.mem_insertionSort]
  constructor
  · exact fun h => dedupFirstAux_subset m _ [] h
  · exact fun h => mem_dedupFirstAux_of m _ [] h rfl

/-- C5 counterexample: `getMajorVersions` does not exclude versions whose
leading component is non-numeric — for the input `["x.1.0"]` the non-numeric
leading component `"x"` appears in the output. -/
theorem C5_counterexample_nonnumeric_not_excluded :
    getMajorVersions ["x.1.0"] = ["x"] ∧ isNumericStr "x" = false := by
  decide

/-- C5 (amended): on inputs whose leading components are all numeric and
pairwise numerically distinct when textually distinct (no redundant leading
zeros), `getMajorVersions` returns a duplicate-free sequence in strictly
descending numeric order whose elements are exactly the leading components
of the input; non-numeric leading components are not excluded by the code
(see the counterexample), so no exclusion clause remains. -/
theorem C5_amended_major_versions (versions : List String)
    (_hnum : ∀ v ∈ versions, isNumericStr (leadComponent v) = true)
    (hinj : ∀ v ∈ versions, ∀ w ∈ versions,
      leadComponent v ≠ leadComponent w →
      jsNumberKey (leadComponent v) ≠ jsNumberKey (leadComponent w)) :
    (getMajorVersions versions).Nodup ∧
    List.Pairwise (fun a b => jsNumberKey b < jsNumberKey a)
      (getMajorVersions versions) ∧
    (∀ m ∈ getMajorVersions versions, ∃ v ∈ versions, leadComponent v = m) ∧
    (∀ v ∈ versions, leadComponent v ∈ getMajorVersions versions) := by
  have hmem : ∀ m, m ∈ getMajorVersions versions ↔
      ∃ v ∈ versions, leadComponent v = m := by
    intro m
    rw [mem_getMajorVersions, List.mem_map]
  have hnd : (getMajorVersions versions).Nodup := by
    unfold getMajorVersions dedupFirst
    exact (List.perm_insertionSort majRel _).nodup_iff.mpr
      (dedupFirstAux_nodup _ [])
  refine ⟨hnd, ?_, fun m hm => (hmem m).mp hm,
    fun v hv => (hmem (leadComponent v)).mpr ⟨v, hv, rfl⟩⟩
  have hsorted : List.Sorted majRel (getMajorVersions versions) := by
    unfold getMajorVersions
    exact List.sorted_insertionSort majRel _
  have hcomb := List.Pairwise.and hsorted hnd
  refine List.Pairwise.imp_of_mem ?_ hcomb
  intro a b ha hb hab
  obtain ⟨v, hv, hva⟩ := (hmem a).mp ha
  obtain ⟨w, hw, hwb⟩ := (hmem b).mp hb
  have hne : jsNumberKey a ≠ jsNumberKey b := by
    rw [← hva, ← hwb]
    exact hinj v hv w hw (by rw [hva, hwb]; exact hab.2)
  exact lt_of_le_of_ne hab.1 (fun he => hne (he ▸ rfl))

/-- Witness for the amended C5 on the concrete input
`["17.1.0", "16.2.0", "17.3.0", "9.0.1"]`. -/
theorem C5_amended_major_versions_witness :
    (getMajorVersions demoMajorInput).Nodup ∧
    List.Pairwise (fun a b => jsNumberKey b < jsNumberKey a)
      (getMajorVersions demoMajorInput) ∧
    (∀ m ∈ getMajorVersions demoMajorInput,
      ∃ v ∈ demoMajorInput, leadComponent v = m) ∧
    (∀ v ∈ demoMajorInput, leadComponent v ∈ getMajorVersions demoMajorInput) :=
  C5_amended_major_versions demoMajorInput (by decide) (by decide)

end NgSetup

namespace NgSetup

/-- C6: the metadata fetch is cache-idempotent within the TTL: a successful
fetch stores the entry; a cached entry younger than the TTL is served with no
request; a second call within the TTL of a successful fetch issues no request
and returns the fetched data; once the TTL has elapsed a request is issued
again; and a failed fetch is never cached, so a subsequent call retries the
network. -/
theorem C6_cache_ttl_idempotence (net net2 : Registry) (c : Cache)
    (packageName : String) (d : PackageData) (t0 t1 : Nat) :
    ((fetchPackageData net t0 c packageName).requestMade = true →
      net packageName = some d →
      (fetchPackageData net t0 c packageName).cache packageName =
        some { data := d, timestamp := t0 }) ∧
    (∀ e, c packageName = some e → t1 - e.timestamp < CACHE_TTL →
      (fetchPackageData net2 t1 c packageName).requestMade = false ∧
      (fetchPackageData net2 t1 c packageName).data = some e.data) ∧
    (net packageName = some d →
      (fetchPackageData net t0 c packageName).requestMade = true →
      t1 - t0 < CACHE_TTL →
      (fetchPackageData net2 t1
          (fetchPackageData net t0 c packageName).cache packageName).requestMade
        = false ∧
      (fetchPackageData net2 t1
          (fetchPackageData net t0 c packageName).cache packageName).data
        = some d) ∧
    (∀ e, c packageName = some e → CACHE_TTL ≤ t1 - e.timestamp →
      (fetchPackageData net2 t1 c packageName).requestMade = true) ∧
    (net packageName = none →
      (fetchPackageData net t0 c packageName).requestMade = true →
      (fetchPackageData net t0 c packageName).data = none ∧
      (fetchPackageData net t0 c packageName).cache = c) ∧
    (net packageName = none → c packageName = none →
      (fetchPackageData net t0 c packageName).requestMade = true ∧
      (fetchPackageData net2 t1
          (fetchPackageData net t0 c packageName).cache packageName).requestMade
        = true) := by
  have hstore : (fetchPackageData net t0 c packageName).requestMade = true →
      net packageName = some d →
      (fetchPackageData net t0 c packageName).cache packageName =
        some { data := d, timestamp := t0 } := by
    intro hreq hnet
    unfold fetchPackageData at hreq ⊢
    cases hc : c packageName with
    | none => simp [hc, hnet, cacheInsert]
    | some e =>
      by_cases httl : t0 - e.timestamp < CACHE_TTL
      · simp [hc, httl] at hreq
      · simp [hc, httl, hnet, cacheInsert]
  refine ⟨hstore, ?_, ?_, ?_, ?_, ?_⟩
  · intro e hce httl
    simp [fetchPackageData, hce, httl]
  · intro hnet hreq httl
    have hc2 := hstore hreq hnet
    generalize hgen : (fetchPackageData net t0 c packageName).cache = c2 at hc2 ⊢
    simp only [fetchPackageData, hc2]
    rw [if_pos (show t1 - ({ data := d, timestamp := t0 } : CacheEntry).timestamp <
      CACHE_TTL from httl)]
    exact ⟨rfl, rfl⟩
  · intro e hce httl
    simp only [fetchPackageData, hce]
    have hnl : ¬ t1 - e.timestamp < CACHE_TTL := by omega
    rw [if_neg hnl]
    cases net2 packageName <;> simp
  · intro hnet hreq
    unfold fetchPackageData at hreq ⊢
    cases hc : c packageName with
    | none => simp [hc, hnet]
    | some e =>
      by_cases httl : t0 - e.timestamp < CACHE_TTL
      · simp [hc, httl] at hreq
      · simp [hc, httl, hnet]
  · intro hnet hc
    have h1 : fetchPackageData net t0 c packageName =
        { data := none, cache := c, requestMade := true } := by
      simp [fetchPackageData, hc, hnet]
    refine ⟨by rw [h1], ?_⟩
    rw [h1]
    simp only
    rw [fetchPackageData, hc]
    cases net2 packageName <;> simp

/-- Witness for C6: a fresh successful fetch at time `0` followed by a call
at time `1000` serves the cache and issues no second request. -/
theorem C6_cache_ttl_idempotence_witness :
    (fetchPackageData demoReg 1000
        (fetchPackageData demoReg 0 emptyCache "demo-lib").cache
        "demo-lib").requestMade = false ∧
    (fetchPackageData demoReg 1000
        (fetchPackageData demoReg 0 emptyCache "demo-lib").cache
        "demo-lib").data =
      some { versions := ["2.0.0", "1.5.0", "1.0.0"], latest := some "2.0.0" } :=
  (C6_cache_ttl_idempotence demoReg demoReg emptyCache "demo-lib"
    { versions := ["2.0.0", "1.5.0", "1.0.0"], latest := some "2.0.0" }
    0 1000).2.2.1 (by decide) (by decide) (by decide)

end NgSetup

namespace NgSetup

/-- C8 counterexample: the claimed malformed-range pattern fallback never
decides the result.  `"^17.junk"` is an invalid range (`rangeSat` fails, as
`new Range` does in semver 7.x), and it contains the claimed pattern
`"^17."`, so under the claim both compatibility checks would answer
compatible — but `semver.satisfies` returns `false` instead of throwing, so
the code answers incompatible from the satisfaction check itself and the
pattern fallback is never reached. -/
theorem C8_counterexample_fallback_unreachable :
    rangeSat "^17.junk" = none ∧
    specPatternCompatible "^17.junk" "17.2.0" = true ∧
    semverSatisfies "17.2.0" "^17.junk" = some false ∧
    (checkLibraryCompatibility "^17.junk" "17.2.0").compatible = false ∧
    (angularDepCompat "^17.junk" "17.2.0").compatible = false :=
  ⟨rfl, by decide, by decide, by decide, by decide⟩

/-- C8 (amended): the standard semantic-version satisfaction check decides
the result alone — `semver.satisfies` catches parse errors internally and
returns `false` rather than throwing, so it never returns the embedding's
thrown-error marker, an unparseable range yields a structured incompatible
result, the substring-pattern `catch` branches of both checks are
unreachable, and no error is ever raised to the caller. -/
theorem C8_amended_satisfies_decides (peerDependency angularVersion : String) :
    (∃ b, semverSatisfies angularVersion peerDependency = some b) ∧
    ((angularDepCompat peerDependency angularVersion).compatible =
      (semverSatisfies angularVersion peerDependency).getD false) ∧
    (peerDependency ≠ "" → peerDependency ≠ "No Angular peer dependency" →
      (checkLibraryCompatibility peerDependency angularVersion).compatible =
        (semverSatisfies angularVersion peerDependency).getD false) ∧
    (rangeSat peerDependency = none →
      (angularDepCompat peerDependency angularVersion).compatible = false ∧
      (peerDependency ≠ "" → peerDependency ≠ "No Angular peer dependency" →
        (checkLibraryCompatibility peerDependency angularVersion).compatible
          = false)) := by
  have hdep : (angularDepCompat peerDependency angularVersion).compatible =
      (semverSatisfies angularVersion peerDependency).getD false := rfl
  have hchk : peerDependency ≠ "" → peerDependency ≠ "No Angular peer dependency" →
      (checkLibraryCompatibility peerDependency angularVersion).compatible =
        (semverSatisfies angularVersion peerDependency).getD false := by
    intro h1 h2
    have hcond : (peerDependency == "" ||
        peerDependency == "No Angular peer dependency") = false := by
      simp [h1, h2]
    unfold checkLibraryCompatibility
    rw [hcond]
    rfl
  refine ⟨⟨_, rfl⟩, hdep, hchk, ?_⟩
  intro hr
  have hs : semverSatisfies angularVersion peerDependency = some false := by
    unfold semverSatisfies
    rw [hr]
    cases parseVer angularVersion <;> rfl
  refine ⟨?_, ?_⟩
  · rw [hdep, hs]
    rfl
  · intro h1 h2
    rw [hchk h1 h2, hs]
    rfl

/-- Witness for the amended C8: the well-formed range `^17.0.0` against
target `17.2.0` is decided compatible by the satisfaction check itself. -/
theorem C8_amended_satisfies_decides_witness :
    (checkLibraryCompatibility "^17.0.0" "17.2.0").compatible = true :=
  ((C8_amended_satisfies_decides "^17.0.0" "17.2.0").2.2.1 (by decide)
    (by decide)).trans (by decide)

/-- C9: `resolveLibraryVersionsAsync` returns exactly one result per request
in input order, never mutates a request — each output preserves the input's
`name` and `isDevDependency` — and a request with an explicit version other
than `"latest"` keeps that version unchanged in its result. -/
theorem C9_resolve_one_result_per_request (reg : Registry) (peers : Peers)
    (libraries : List Library) (angularVersion : String) :
    (resolveLibraryVersionsAsync reg peers libraries angularVersion).length =
      libraries.length ∧
    List.Forall₂ (fun lib o =>
        o.name = lib.name ∧ o.isDevDependency = lib.isDevDependency ∧
        (∀ v, lib.version = some v → v ≠ "latest" → v ≠ "" →
          o.version = some v))
      libraries (resolveLibraryVersionsAsync reg peers libraries angularVersion) := by
  constructor
  · exact List.length_map libraries _
  · unfold resolveLibraryVersionsAsync
    rw [List.forall₂_map_right_iff, List.forall₂_same]
    intro lib _
    cases hv : lib.version with
    | none =>
      refine ⟨by simp [resolveOne, hv], by simp [resolveOne, hv], ?_⟩
      intro v hveq
      cases hveq
    | some v0 =>
      by_cases h0 : v0 = ""
      · subst h0
        refine ⟨by simp [resolveOne, hv], by simp [resolveOne, hv], ?_⟩
        intro v hveq hlat hne
        cases hveq
        exact absurd rfl hne
      · by_cases hl : v0 = "latest"
        · subst hl
          refine ⟨by simp [resolveOne, hv], by simp [resolveOne, hv], ?_⟩
          intro v hveq hlat _
          cases hveq
          exact absurd rfl hlat
        · refine ⟨by simp [resolveOne, hv, h0, hl], by simp [resolveOne, hv, h0, hl], ?_⟩
          intro v hveq _ _
          cases hveq
          simp [resolveOne, hv, h0, hl]

/-- Witness for C9: the concrete request list with one `latest` request and
one pinned request. -/
theorem C9_resolve_one_result_per_request_witness :
    (resolveLibraryVersionsAsync demoReg demoPeers demoLibs "17.2.0").length =
      demoLibs.length ∧
    List.Forall₂ (fun lib o =>
        o.name = lib.name ∧ o.isDevDependency = lib.isDevDependency ∧
        (∀ v, lib.version = some v → v ≠ "latest" → v ≠ "" →
          o.version = some v))
      demoLibs (resolveLibraryVersionsAsync demoReg demoPeers demoLibs "17.2.0") :=
  C9_resolve_one_result_per_request demoReg demoPeers demoLibs "17.2.0"

end NgSetup
